import Mathlib

/-!
Verification of the Members API (serverless CRUD service) against its
natural-language specification.  The TypeScript sources are shallowly
embedded: JavaScript objects become structures with Option-typed fields,
the DynamoDB member table becomes an association list with put/delete/find
operations, the S3 object store and the Pinecone vector index become
association lists as well, and external effects (uuid generation, the
embedding model, S3 delete outcomes) become explicit parameters.
-/

/-! ## JavaScript value coercion helpers

JavaScript truthiness as used by the sources: a number is truthy iff it is
nonzero (NaN is not modelled; numeric raw values are embedded as `Int`),
a string is truthy iff it is nonempty, `undefined` is falsy.  Optional raw
fields are `Option`-typed, `none` meaning the field is absent. -/

/-- JavaScript `String.prototype.trim`, embedded as a list-based scanner
so that concrete evaluation goes through the kernel. -/
def jsTrim (s : String) : String :=
  String.mk (((s.data.dropWhile Char.isWhitespace).reverse.dropWhile Char.isWhitespace).reverse)

def splitCommaChars : List Char → List (List Char)
  | [] => [[]]
  | c :: rest =>
      if c = ',' then [] :: splitCommaChars rest
      else
        match splitCommaChars rest with
        | [] => [[c]]
        | g :: gs => (c :: g) :: gs

/-- JavaScript `String.prototype.split(',')`. -/
def jsSplitComma (s : String) : List String :=
  (splitCommaChars s.data).map String.mk

/-- JavaScript `String.prototype.toLowerCase`. -/
def jsToLower (s : String) : String := String.mk (s.data.map Char.toLower)

/-- JavaScript `String.prototype.endsWith(suffix)`. -/
def jsEndsWith (s suffix : String) : Bool := suffix.data.isSuffixOf s.data

/-- Truthiness of an optional numeric field (`undefined` and `0` are falsy). -/
def jsTruthyN (v : Option Int) : Bool :=
  match v with
  | some n => n != 0
  | none => false

/-- Truthiness of an optional string field (`undefined` and the empty string are falsy). -/
def jsTruthyS (v : Option String) : Bool :=
  match v with
  | some s => s != ""
  | none => false

/-- Coercion `v ? Number(v) : d` on an optional numeric field: numeric parse when
truthy, the default otherwise (so a provided `0` takes the default). -/
def jsNumOr (v : Option Int) (d : Int) : Int :=
  match v with
  | some n => if n != 0 then n else d
  | none => d

/-- Coercion `v ? Number(v) : undefined` on an optional numeric field. -/
def jsNumOrNone (v : Option Int) : Option Int :=
  match v with
  | some n => if n != 0 then some n else none
  | none => none

/-- Coercion `v?.toString().trim() || ''` on an optional string field. -/
def jsTrimOrEmpty (v : Option String) : String :=
  match v with
  | some s => jsTrim s
  | none => ""

/-- Fallback `v || null` on an optional (nullable) string field: the raw value is
absent (`none`), or present with value `null` (`some none`) or a string
(`some (some s)`); the result is the string when truthy, else `null`. -/
def jsOrNull (v : Option (Option String)) : Option String :=
  match v with
  | some (some s) => if s != "" then some s else none
  | _ => none

/-- Fallback `s || d` on a plain string (the empty string is falsy). -/
def jsStrOr (s d : String) : String :=
  if s != "" then s else d

/-- A raw array-valued field as received from JSON: either an actual array
or some non-array value (which the sanitizers turn into `[]`). -/
inductive RawArrVal where
  | arr (l : List String)
  | nonArray
deriving DecidableEq

/-- Coercion `Array.isArray(v) ? v : []`. -/
def RawArrVal.toList : RawArrVal → List String
  | .arr l => l
  | .nonArray => []

/-! ## Key-value table model

The DynamoDB member table (and the S3 bucket) are embedded as association
lists keyed by strings.  `put` overwrites the entry with the given key (or
appends), `del` removes every entry with the key, `find` returns the first
binding. -/

abbrev Table (α : Type) := List (String × α)

/-- Point lookup (DynamoDB `GetCommand` / S3 `HeadObjectCommand`). -/
def Table.find {α : Type} : Table α → String → Option α
  | [], _ => none
  | (k, v) :: rest, key => if k = key then some v else Table.find rest key

/-- Full overwrite of one key (DynamoDB `PutCommand` / S3 `PutObjectCommand`). -/
def Table.put {α : Type} : Table α → String → α → Table α
  | [], key, v => [(key, v)]
  | (k, w) :: rest, key, v =>
      if k = key then (key, v) :: rest else (k, w) :: Table.put rest key v

/-- Deletion of one key (DynamoDB `DeleteCommand` / S3 delete). -/
def Table.del {α : Type} (t : Table α) (key : String) : Table α :=
  t.filter (fun e => e.1 != key)

theorem Table.find_put_self {α : Type} (t : Table α) (k : String) (v : α) :
    Table.find (Table.put t k v) k = some v := by
  induction t with
  | nil => simp [Table.put, Table.find]
  | cons e rest ih =>
      obtain ⟨k1, v1⟩ := e
      by_cases h : k1 = k
      · simp [Table.put, h, Table.find]
      · simp [Table.put, h, Table.find, ih]

theorem Table.find_put_other {α : Type} (t : Table α) (k k2 : String) (v : α)
    (h : k2 ≠ k) : Table.find (Table.put t k v) k2 = Table.find t k2 := by
  induction t with
  | nil => simp [Table.put, Table.find, Ne.symm h]
  | cons e rest ih =>
      obtain ⟨k1, v1⟩ := e
      by_cases h1 : k1 = k
      · subst h1
        simp [Table.put, Table.find, Ne.symm h]
      · simp [Table.put, h1, Table.find, ih]

theorem Table.find_del_self {α : Type} (t : Table α) (k : String) :
    Table.find (Table.del t k) k = none := by
  induction t with
  | nil => simp [Table.del, Table.find]
  | cons e rest ih =>
      obtain ⟨k1, v1⟩ := e
      by_cases h : k1 = k
      · simp only [Table.del, List.filter_cons] at ih ⊢
        simp [h, ih]
      · simp only [Table.del, List.filter_cons] at ih ⊢
        simp [bne_iff_ne, h, Table.find, ih]

theorem Table.find_del_other {α : Type} (t : Table α) (k k2 : String)
    (h : k2 ≠ k) : Table.find (Table.del t k) k2 = Table.find t k2 := by
  induction t with
  | nil => simp [Table.del, Table.find]
  | cons e rest ih =>
      obtain ⟨k1, v1⟩ := e
      simp only [Table.del, List.filter_cons] at ih ⊢
      by_cases h1 : k1 = k
      · subst h1
        simp [Table.find, Ne.symm h, ih]
      · simp [bne_iff_ne, h1, Table.find, ih]

/-! ## Data model (src/models/member.ts, mirrored by the `Member` interface
in the legacy ddb module)

All fields except `id` are optional in the stored record. -/

structure MemberItem where
  id : String
  name : Option String := none
  pseudonym : Option String := none
  title : Option String := none
  descript : Option String := none
  owner : Option String := none
  born : Option Int := none
  died : Option Int := none
  ethnicity : Option String := none
  eyes : Option String := none
  hair : Option String := none
  height : Option String := none
  weight : Option Int := none
  hp : Option Int := none
  level : Option Int := none
  colour_hex : Option String := none
  caster_colour : Option String := none
  classes : Option (List String) := none
  races : Option (List String) := none
  religion : Option String := none
  groups : Option (List String) := none
  tower_id : Option String := none
  image : Option String := none
  deleted : Option Int := none
deriving DecidableEq

/-! ## Request types and sanitizers (src/utils/mappingUtils.ts)

`RawMemberData` embeds the untyped JSON payload: every field is optional;
string-valued fields are `Option String`, numeric fields `Option Int`,
array fields `Option RawArrVal` (present but non-array is `some .nonArray`),
nullable reference fields `Option (Option String)` (present `null` is
`some none`). -/

structure RawMemberData where
  id : Option String := none
  name : Option String := none
  pseudonym : Option String := none
  title : Option String := none
  descript : Option String := none
  owner : Option String := none
  born : Option Int := none
  died : Option Int := none
  ethnicity : Option String := none
  eyes : Option String := none
  hair : Option String := none
  height : Option String := none
  weight : Option Int := none
  hp : Option Int := none
  level : Option Int := none
  colour_hex : Option (Option String) := none
  caster_colour : Option (Option String) := none
  classes : Option RawArrVal := none
  races : Option RawArrVal := none
  religion : Option String := none
  groups : Option RawArrVal := none
  tower_id : Option (Option String) := none
  image : Option String := none
deriving DecidableEq

/-- Typed create request produced by `sanitizeCreateMemberRequest`. -/
structure CreateMemberRequest where
  name : String
  pseudonym : String
  title : String
  descript : String
  owner : String
  born : Option Int
  died : Option Int
  ethnicity : String
  eyes : String
  hair : String
  height : String
  weight : Int
  hp : Int
  level : Int
  colour_hex : Option String
  caster_colour : Option String
  classes : List String
  races : List String
  religion : String
  groups : List String
  tower_id : Option String
  image : String
deriving DecidableEq

/-- Typed partial-update request produced by `sanitizeUpdateMemberRequest`:
every field is present only when it was present in the raw input. -/
structure UpdateMemberRequest where
  name : Option String := none
  pseudonym : Option String := none
  title : Option String := none
  descript : Option String := none
  owner : Option String := none
  born : Option Int := none
  died : Option Int := none
  ethnicity : Option String := none
  eyes : Option String := none
  hair : Option String := none
  height : Option String := none
  weight : Option Int := none
  hp : Option Int := none
  level : Option Int := none
  colour_hex : Option (Option String) := none
  caster_colour : Option (Option String) := none
  classes : Option (List String) := none
  races : Option (List String) := none
  religion : Option String := none
  groups : Option (List String) := none
  tower_id : Option (Option String) := none
  image : Option String := none
deriving DecidableEq

/-- src/utils/mappingUtils.ts, `sanitizeCreateMemberRequest`: strings are
trimmed with `|| ''`, numeric fields coerced via `v ? Number(v) : default`
(hp defaults to 1, level to 1, weight to 0, born/died to `undefined`),
array fields default to `[]` when not an array, nullable reference fields
pass through with `|| null`. -/
def sanitizeCreateMemberRequest (rawData : RawMemberData) : CreateMemberRequest :=
  { name := jsTrimOrEmpty rawData.name
    pseudonym := jsTrimOrEmpty rawData.pseudonym
    title := jsTrimOrEmpty rawData.title
    descript := jsTrimOrEmpty rawData.descript
    owner := jsTrimOrEmpty rawData.owner
    born := jsNumOrNone rawData.born
    died := jsNumOrNone rawData.died
    ethnicity := jsTrimOrEmpty rawData.ethnicity
    eyes := jsTrimOrEmpty rawData.eyes
    hair := jsTrimOrEmpty rawData.hair
    height := jsTrimOrEmpty rawData.height
    weight := jsNumOr rawData.weight 0
    hp := jsNumOr rawData.hp 1
    level := jsNumOr rawData.level 1
    colour_hex := jsOrNull rawData.colour_hex
    caster_colour := jsOrNull rawData.caster_colour
    classes := (rawData.classes.getD .nonArray).toList
    races := (rawData.races.getD .nonArray).toList
    religion := jsTrimOrEmpty rawData.religion
    groups := (rawData.groups.getD .nonArray).toList
    tower_id := jsOrNull rawData.tower_id
    image := jsTrimOrEmpty rawData.image }

/-- src/utils/mappingUtils.ts, `sanitizeUpdateMemberRequest`: each known
field is copied into the update record only when it is present
(`!== undefined`) in the raw input; strings are trimmed, numeric fields go
through `Number` unconditionally (a present `0` stays `0`), non-array
values of array fields become `[]`, nullable reference fields pass through
unchanged. -/
def sanitizeUpdateMemberRequest (rawData : RawMemberData) : UpdateMemberRequest :=
  { name := rawData.name.map jsTrim
    pseudonym := rawData.pseudonym.map jsTrim
    title := rawData.title.map jsTrim
    descript := rawData.descript.map jsTrim
    owner := rawData.owner.map jsTrim
    born := rawData.born
    died := rawData.died
    ethnicity := rawData.ethnicity.map jsTrim
    eyes := rawData.eyes.map jsTrim
    hair := rawData.hair.map jsTrim
    height := rawData.height.map jsTrim
    weight := rawData.weight
    hp := rawData.hp
    level := rawData.level
    colour_hex := rawData.colour_hex
    caster_colour := rawData.caster_colour
    classes := rawData.classes.map RawArrVal.toList
    races := rawData.races.map RawArrVal.toList
    religion := rawData.religion.map jsTrim
    groups := rawData.groups.map RawArrVal.toList
    tower_id := rawData.tower_id
    image := rawData.image.map jsTrim }

/-! ## Service result type (src/models/member.ts `ServiceResponse` and the
error taxonomy of src/utils/mappingUtils.ts) -/

inductive ErrCode where
  | VALIDATION_ERROR
  | MEMBER_NOT_FOUND
  | UNAUTHORIZED
  | FORBIDDEN
  | INTERNAL_ERROR
deriving DecidableEq

/-- Tagged success/error result returned by every member-service operation. -/
inductive SvcResult (α : Type) where
  | ok (data : α)
  | err (code : ErrCode) (message : String)
deriving DecidableEq

/-- src/utils/mappingUtils.ts `getStatusCodeFromError`. -/
def getStatusCodeFromError : ErrCode → Nat
  | .VALIDATION_ERROR => 400
  | .MEMBER_NOT_FOUND => 404
  | .UNAUTHORIZED => 401
  | .FORBIDDEN => 403
  | .INTERNAL_ERROR => 500

/-! ## Member repository (src/repositories/memberRepository.ts, whose text
appears in the retrieved sources alongside classRepository.ts) -/

/-- Source `MemberRepository.create`: builds the stored item from the request
(applying the `|| ''`, `|| 0`, `|| 1`, `|| []` fallbacks of the source)
under a freshly generated uuid.  The uuid is an explicit parameter standing
for the external `uuidv4()` call. -/
def memberRepositoryCreateItem (request : CreateMemberRequest) (uuid : String) : MemberItem :=
  { id := uuid
    name := some (jsStrOr request.name "")
    pseudonym := some (jsStrOr request.pseudonym "")
    title := some (jsStrOr request.title "")
    descript := some (jsStrOr request.descript "")
    owner := some (jsStrOr request.owner "")
    born := request.born
    died := request.died
    ethnicity := some request.ethnicity
    eyes := some request.eyes
    hair := some request.hair
    height := some request.height
    weight := some (if request.weight != 0 then request.weight else 0)
    hp := some (if request.hp != 0 then request.hp else 1)
    level := some (if request.level != 0 then request.level else 1)
    colour_hex := request.colour_hex
    caster_colour := request.caster_colour
    classes := some request.classes
    races := some request.races
    religion := some request.religion
    groups := some request.groups
    tower_id := request.tower_id
    image := some request.image
    deleted := none }

/-- Source `MemberRepository.create`: puts the built item into the member table and
returns it. -/
def memberRepositoryCreate (request : CreateMemberRequest) (uuid : String)
    (db : Table MemberItem) : MemberItem × Table MemberItem :=
  let dbMember := memberRepositoryCreateItem request uuid
  (dbMember, Table.put db dbMember.id dbMember)

/-- Source `MemberRepository.getById`: point get, `null` when absent. -/
def memberRepositoryGetById (id : String) (db : Table MemberItem) : Option MemberItem :=
  Table.find db id

/-- Sparse field-by-field application of an update record: exactly the
present fields are set, every absent field keeps the stored value.  This is
the effect of the dynamically built DynamoDB `UpdateExpression`
(`SET #f = :f` for each defined entry of the update record). -/
def applyUpdates (m : MemberItem) (u : UpdateMemberRequest) : MemberItem :=
  { id := m.id
    name := match u.name with | some v => some v | none => m.name
    pseudonym := match u.pseudonym with | some v => some v | none => m.pseudonym
    title := match u.title with | some v => some v | none => m.title
    descript := match u.descript with | some v => some v | none => m.descript
    owner := match u.owner with | some v => some v | none => m.owner
    born := match u.born with | some v => some v | none => m.born
    died := match u.died with | some v => some v | none => m.died
    ethnicity := match u.ethnicity with | some v => some v | none => m.ethnicity
    eyes := match u.eyes with | some v => some v | none => m.eyes
    hair := match u.hair with | some v => some v | none => m.hair
    height := match u.height with | some v => some v | none => m.height
    weight := match u.weight with | some v => some v | none => m.weight
    hp := match u.hp with | some v => some v | none => m.hp
    level := match u.level with | some v => some v | none => m.level
    colour_hex := match u.colour_hex with | some v => v | none => m.colour_hex
    caster_colour := match u.caster_colour with | some v => v | none => m.caster_colour
    classes := match u.classes with | some v => some v | none => m.classes
    races := match u.races with | some v => some v | none => m.races
    religion := match u.religion with | some v => some v | none => m.religion
    groups := match u.groups with | some v => some v | none => m.groups
    tower_id := match u.tower_id with | some v => v | none => m.tower_id
    image := match u.image with | some v => some v | none => m.image
    deleted := m.deleted }

/-- Whether the update record defines no field at all (the source then
throws `No valid updates provided`). -/
def UpdateMemberRequest.isEmptyUpdate (u : UpdateMemberRequest) : Bool :=
  u.name.isNone && u.pseudonym.isNone && u.title.isNone && u.descript.isNone &&
  u.owner.isNone && u.born.isNone && u.died.isNone && u.ethnicity.isNone &&
  u.eyes.isNone && u.hair.isNone && u.height.isNone && u.weight.isNone &&
  u.hp.isNone && u.level.isNone && u.colour_hex.isNone && u.caster_colour.isNone &&
  u.classes.isNone && u.races.isNone && u.religion.isNone && u.groups.isNone &&
  u.tower_id.isNone && u.image.isNone

/-- Source `MemberRepository.update`: throws when no field is defined; otherwise
issues the sparse `UpdateCommand` and returns the post-update attributes
(`ReturnValues: ALL_NEW`).  DynamoDB updates a missing item into existence
holding just the written fields; the service never reaches that case
because it checks existence first. -/
def memberRepositoryUpdate (id : String) (updates : UpdateMemberRequest)
    (db : Table MemberItem) : Except String (MemberItem × Table MemberItem) :=
  if updates.isEmptyUpdate then
    .error "No valid updates provided"
  else
    let base := match Table.find db id with
      | some m => m
      | none => { id := id }
    let updated := applyUpdates base updates
    .ok (updated, Table.put db id updated)

/-- Modelled from the spec: `MemberRepository.delete` is not under src (only
its call site in `MemberService.deleteMember` is).  Per the spec it
"deletes the member record". -/
def memberRepositoryDelete (id : String) (db : Table MemberItem) : Table MemberItem :=
  Table.del db id

/-! ## getByOwner: paginated scan (src/repositories/memberRepository.ts)

The repository loops over `ScanCommand` pages carrying
`FilterExpression: '#owner = :owner'` and concatenates `result.Items`.
The underlying paginated storage result is embedded as a list of pages of
the raw table; DynamoDB applies the filter expression to each page before
returning it. -/

/-- The read command a member-table lookup issues: a full-table scan with a
filter expression, or a query against a named index. -/
inductive DdbReadCommand where
  | scanFilterOwner (ownerValue : String)
  | queryIndex (indexName : String) (ownerValue : String)
deriving DecidableEq

/-- Whether the command is an owner-indexed query (not a full scan). -/
def DdbReadCommand.isIndexedQuery : DdbReadCommand → Bool
  | .scanFilterOwner _ => false
  | .queryIndex _ _ => true

/-- The command `MemberRepository.getByOwner` sends on every page request:
a `ScanCommand` with `FilterExpression: '#owner = :owner'` bound to the
ownerId — not a query against an owner index. -/
def getByOwnerCommand (ownerId : String) : DdbReadCommand :=
  .scanFilterOwner ownerId

/-- The accumulation loop of `MemberRepository.getByOwner`: each page comes
back filtered on `owner = ownerId` and is appended to the accumulator until
no `LastEvaluatedKey` remains. -/
def getByOwnerLoop (ownerId : String) : List (List MemberItem) → List MemberItem
  | [] => []
  | page :: rest =>
      page.filter (fun m => m.owner == some ownerId) ++ getByOwnerLoop ownerId rest

theorem getByOwnerLoop_eq_filter_flatten (ownerId : String) (pages : List (List MemberItem)) :
    getByOwnerLoop ownerId pages =
      pages.flatten.filter (fun m => m.owner == some ownerId) := by
  induction pages with
  | nil => simp [getByOwnerLoop]
  | cons page rest ih => simp [getByOwnerLoop, List.filter_append, ih]

/-! ## Member service (src/services/memberService.ts)

Each operation validates, calls the repository, and wraps the outcome in
the tagged result type.  Repository failures are caught and converted to
`INTERNAL_ERROR`; the embedded service functions therefore return plain
values, with the state threaded explicitly. -/

/-- Source `MemberService.createMember`: `VALIDATION_ERROR` when the name is empty
or whitespace-only (`!request.name || request.name.trim().length === 0`),
otherwise delegate to the repository and return the persisted record. -/
def memberServiceCreate (request : CreateMemberRequest) (uuid : String)
    (db : Table MemberItem) : SvcResult MemberItem × Table MemberItem :=
  if request.name = "" ∨ jsTrim request.name = "" then
    (.err .VALIDATION_ERROR "Member name cannot be empty", db)
  else
    let r := memberRepositoryCreate request uuid db
    (.ok r.1, r.2)

/-- Source `MemberService.getMembersByOwner`: `VALIDATION_ERROR` on an empty or
whitespace-only ownerId, otherwise the repository scan loop result. -/
def memberServiceGetByOwner (ownerId : String) (pages : List (List MemberItem)) :
    SvcResult (List MemberItem) :=
  if ownerId = "" ∨ jsTrim ownerId = "" then
    .err .VALIDATION_ERROR "Owner ID is required"
  else
    .ok (getByOwnerLoop ownerId pages)

/-- Source `MemberService.updateMember`: id validation, existence pre-check,
name-if-present validation, then the sparse repository update; a repository
throw is converted to `INTERNAL_ERROR`. -/
def memberServiceUpdate (id : String) (updates : UpdateMemberRequest)
    (db : Table MemberItem) : SvcResult MemberItem × Table MemberItem :=
  if id = "" ∨ jsTrim id = "" then
    (.err .VALIDATION_ERROR "Member ID is required", db)
  else
    match Table.find db id with
    | none => (.err .MEMBER_NOT_FOUND "Member not found", db)
    | some _ =>
        match updates.name with
        | some n =>
            if jsTrim n = "" then
              (.err .VALIDATION_ERROR "Member name cannot be empty", db)
            else
              match memberRepositoryUpdate id updates db with
              | .ok (m, db2) => (.ok m, db2)
              | .error e => (.err .INTERNAL_ERROR ("Failed to update member: " ++ e), db)
        | none =>
            match memberRepositoryUpdate id updates db with
            | .ok (m, db2) => (.ok m, db2)
            | .error e => (.err .INTERNAL_ERROR ("Failed to update member: " ++ e), db)

/-! ## Image service (src/services/imageService.ts)

Stored S3 objects are embedded symbolically: the sharp resize pipeline is
an uninterpreted constructor recording its inputs (source buffer, target
dimensions, JPEG quality), video uploads store the raw buffer, and
pre-existing objects are opaque blobs.  A buffer is abstracted to its byte
length plus a tag distinguishing distinct buffers. -/

structure Buffer where
  len : Nat
  tag : Nat := 0
deriving DecidableEq

inductive S3Obj where
  | resizedJpeg (src : Buffer) (width height quality : Nat)
  | rawVideo (src : Buffer)
  | blob (n : Nat)
deriving DecidableEq

structure FileType where
  mimeType : String
  extension : String
  isVideo : Bool
deriving DecidableEq

/-- Source `ImageService.getFileType`: extension-based detection on the lowercased
filename — `.mp4` is video, everything else is treated as an image. -/
def getFileType (originalFilename : String) : FileType :=
  let filename := jsToLower originalFilename
  if jsEndsWith filename ".mp4" then
    { mimeType := "video/mp4", extension := "mp4", isVideo := true }
  else
    { mimeType := "image/jpeg", extension := "jpg", isVideo := false }

structure ImageUploadResult where
  success : Bool
  imageUrl : Option String := none
  error : Option String := none
deriving DecidableEq

/-- Source `ImageService.updateImageInS3`: first a `HeadObjectCommand` on the
existing key — a `NotFound` answer yields the distinct failure
`File does not exist, cannot update`.  When the object exists the buffer is
processed (videos over 1 MiB throw, and the throw is caught by the outer
handler as a generic `Failed to update file: ...` failure; images are
resized to 300x500 JPEG at quality 90) and written back under the very same
key. -/
def updateImageInS3 (fileBuffer : Buffer) (existingImageKey : String)
    (s3 : Table S3Obj) : ImageUploadResult × Table S3Obj :=
  match Table.find s3 existingImageKey with
  | none =>
      ({ success := false, error := some "File does not exist, cannot update" }, s3)
  | some _ =>
      let fileType := getFileType existingImageKey
      if fileType.isVideo then
        if fileBuffer.len > 1024 * 1024 then
          ({ success := false,
             error := some "Failed to update file: Video file must be smaller than 1MB" }, s3)
        else
          ({ success := true, imageUrl := some existingImageKey },
           Table.put s3 existingImageKey (.rawVideo fileBuffer))
      else
        ({ success := true, imageUrl := some existingImageKey },
         Table.put s3 existingImageKey (.resizedJpeg fileBuffer 300 500 90))

structure ImageDeleteResult where
  success : Bool
  error : Option String := none
deriving DecidableEq

/-- Modelled from the spec: `ImageService.deleteImageFromS3` is not under
src (only its call site in `MemberService.deleteMember` is).  Per the spec
it best-effort deletes the stored object and reports failure through the
result value rather than by throwing; whether the external delete fails is
an oracle parameter. -/
def deleteImageFromS3 (key : String) (s3 : Table S3Obj) (deleteFails : Bool) :
    ImageDeleteResult × Table S3Obj :=
  if deleteFails then
    ({ success := false, error := some "S3 delete failed" }, s3)
  else
    ({ success := true }, Table.del s3 key)

/-- Source `MemberService.deleteMember`: id validation, existence pre-check, then
a best-effort image delete whose failure is logged and deliberately ignored
(`// Continue with member deletion even if image deletion fails`), then the
member-record delete. -/
def memberServiceDelete (id : String) (db : Table MemberItem) (s3 : Table S3Obj)
    (imageDeleteFails : Bool) : SvcResult String × Table MemberItem × Table S3Obj :=
  if id = "" ∨ jsTrim id = "" then
    (.err .VALIDATION_ERROR "Member ID is required", db, s3)
  else
    match Table.find db id with
    | none => (.err .MEMBER_NOT_FOUND "Member not found", db, s3)
    | some existingMember =>
        let s3' :=
          if jsTruthyS existingMember.image then
            (deleteImageFromS3 ((existingMember.image).getD "") s3 imageDeleteFails).2
          else s3
        let db' := memberRepositoryDelete id db
        (.ok "Member deleted successfully", db', s3')

/-! ## Authorization (src/services/authService.ts)

The gateway attaches a claims object; its `cognito:groups` entry is either
absent, a comma-separated string, or an array of strings. -/

inductive GroupsClaim where
  | absent
  | str (s : String)
  | groupList (l : List String)
deriving DecidableEq

structure ClaimsSet where
  sub : Option String := none
  groups : GroupsClaim := .absent
deriving DecidableEq

structure AuthenticationResult where
  statusCode : Nat
  message : Option String := none
  userGroups : Option (List String) := none
  isAuthorized : Option Bool := none
deriving DecidableEq

/-- Source `extractUserGroups`: `claims?.['cognito:groups']?.split(',') || []`.
An absent claims object or groups entry yields `[]`; a string is split on
commas; an array-valued entry has no `.split` method, so the expression
throws a `TypeError` at runtime (embedded as the error case). -/
def extractUserGroups (claims : Option ClaimsSet) : Except String (List String) :=
  match claims with
  | none => .ok []
  | some c =>
      match c.groups with
      | .absent => .ok []
      | .str s => .ok (jsSplitComma s)
      | .groupList _ => .error "TypeError: split is not a function"

/-- The fixed mutation-policy role set of `checkMemberAuthorization`. -/
def requiredGroups : List String := ["MemberEditors", "Deity", "Administrator"]

/-- Source `checkMemberAuthorization`: allow (200) iff some extracted group is in
the required set, else 403.  A `TypeError` from `extractUserGroups`
propagates (the top-level handler later downgrades it to 500). -/
def checkMemberAuthorization (claims : Option ClaimsSet) :
    Except String AuthenticationResult :=
  match extractUserGroups claims with
  | .error e => .error e
  | .ok userGroups =>
      let isAuthorized := userGroups.any (fun g => requiredGroups.contains g)
      if !isAuthorized then
        .ok { statusCode := 403, message := some "Unauthorized - insufficient permissions",
              userGroups := some userGroups, isAuthorized := some false }
      else
        .ok { statusCode := 200, message := some "Authorized",
              userGroups := some userGroups, isAuthorized := some true }

/-- The role set of `checkCharacterAccess` (note the singular
`MemberEditor`, unlike the mutation policy). -/
def characterAccessGroups : List String := ["Administrator", "Deity", "MemberEditor"]

/-- Source `checkCharacterAccess`: a caller may always list their own characters
(no requested sub, or requested sub equal to the caller sub); another
subject requires group membership, where a string-valued groups claim is
compared as one literal against the role set and an array-valued claim is
checked element-wise. -/
def checkCharacterAccess (claims : Option ClaimsSet) (requestedSub : Option String) :
    AuthenticationResult :=
  let currentUserSub := claims.bind (fun c => c.sub)
  match requestedSub with
  | some rs =>
      if rs ≠ "" ∧ some rs ≠ currentUserSub then
        match claims with
        | none => { statusCode := 403, message := some "Forbidden" }
        | some c =>
            let isInGroup :=
              match c.groups with
              | .str s => characterAccessGroups.contains s
              | .groupList l => l.any (fun g => characterAccessGroups.contains g)
              | .absent => false
            if !isInGroup then
              { statusCode := 403, message := some "Forbidden" }
            else
              { statusCode := 200, message := some "Authorized", isAuthorized := some true }
      else
        { statusCode := 200, message := some "Authorized", isAuthorized := some true }
  | none => { statusCode := 200, message := some "Authorized", isAuthorized := some true }

/-! ## Top-level Lambda handler (src/handler.ts)

The response body is kept structured (`JSON.stringify` is abstracted away:
the embedded response carries the value that the source would stringify).
Downstream per-method handlers may throw; their outcome is an `Except`
parameter, whose error case the top-level try/catch downgrades to a 500
carrying the failure message. -/

inductive HandlerBody (β : Type) where
  | messageObj (s : String)
  | payload (b : β)
deriving DecidableEq

structure ApiResponse (β : Type) where
  statusCode : Nat
  headers : List (String × String)
  body : HandlerBody β
deriving DecidableEq

/-- The fixed CORS/content-type header set installed once on the response
object before dispatch and never modified afterwards. -/
def corsHeaders : List (String × String) :=
  [("Content-Type", "application/json"),
   ("Access-Control-Allow-Origin", "*"),
   ("Access-Control-Allow-Methods", "GET, POST, PUT, DELETE, OPTIONS"),
   ("Access-Control-Allow-Headers", "Content-Type, Authorization"),
   ("Access-Control-Max-Age", "86400")]

/-- src/handler.ts `handler`: switch on the HTTP method — the four CRUD
methods dispatch to their downstream handler, OPTIONS short-circuits to a
200 `OK` with no authorization check, anything else is a 405; a raised
failure from any downstream handler is caught and surfaced as a 500 with
the failure message. -/
def methodDispatch {β : Type} (httpMethod : String)
    (hGet hPost hPut hDelete : Except String (Nat × HandlerBody β)) :
    Except String (Nat × HandlerBody β) :=
  match httpMethod with
  | "POST" => hPost
  | "GET" => hGet
  | "PUT" => hPut
  | "DELETE" => hDelete
  | "OPTIONS" => .ok (200, .messageObj "OK")
  | _ => .ok (405, .messageObj "Method not allowed")

def lambdaHandler {β : Type} (httpMethod : String)
    (hGet hPost hPut hDelete : Except String (Nat × HandlerBody β)) : ApiResponse β :=
  match methodDispatch httpMethod hGet hPost hPut hDelete with
  | .ok (sc, b) => { statusCode := sc, headers := corsHeaders, body := b }
  | .error e => { statusCode := 500, headers := corsHeaders, body := .messageObj e }

/-! ## PUT /members/member/(id) body handling (src/handler.ts `updateMember`)

`memberData` is the parsed request body (the JSON body, or the JSON-decoded
`data` field of a multipart body).  `imageS3Key`/`imageValidationError` are
the outcomes of the optional multipart image upload, which the source
performs before the id check. -/

inductive UpdateMemberRespBody where
  | messageObj (s : String)
  | memberBody (m : MemberItem) (warning : Option String)
  | errorBody (code : ErrCode) (message : String)
deriving DecidableEq

/-- src/handler.ts `updateMember`: reject a body without a truthy `id`
field with 400 `Missing member ID`; otherwise sanitize the body into a
partial update (adding the uploaded image key when present), call the
member service, and shape the response (200 with the updated record, plus
a warning when the image upload failed; service errors via the error-code
to status mapping). -/
def handlerUpdateMember (memberData : RawMemberData) (imageS3Key : Option String)
    (imageValidationError : Option String) (memberId : String)
    (db : Table MemberItem) : (Nat × UpdateMemberRespBody) × Table MemberItem :=
  if !(jsTruthyS memberData.id) then
    ((400, .messageObj "Missing member ID"), db)
  else
    let updates := sanitizeUpdateMemberRequest memberData
    let updates := match imageS3Key with
      | some k => { updates with image := some k }
      | none => updates
    match memberServiceUpdate memberId updates db with
    | (.ok m, db2) =>
        let warning := imageValidationError.map
          (fun e => "Member updated successfully, but image was not uploaded: " ++ e)
        ((200, .memberBody m warning), db2)
    | (.err c msg, db2) => ((getStatusCodeFromError c, .errorBody c msg), db2)

/-! ## Embedding text construction (src/services/embeddingService.ts)

`stripHtml` is a regex pipeline in the source (block-level tags to
paragraph breaks, remaining tags removed, common entities decoded,
whitespace normalized); it is embedded as an equivalent character scanner.
No claim depends on the exact text, only on whether the composed document
is empty. -/

/-- Block-level tag names whose open and close tags become paragraph breaks. -/
def blockTagNames : List String :=
  ["p", "div", "h1", "h2", "h3", "h4", "h5", "h6", "li", "ul", "ol", "blockquote", "br"]

/-- The tag name of a tag body: leading `/` and whitespace skipped, then
the longest alphanumeric prefix. -/
def tagNameOf (inner : List Char) : String :=
  let rest := inner.dropWhile (fun c => c = '/' ∨ c.isWhitespace)
  String.mk (rest.takeWhile (fun c => c.isAlphanum))

/-- One-pass tag replacement: a `<...>` span becomes a paragraph break when
its tag name is block-level and a space otherwise (combining the three tag
regexes of the source; an unterminated `<` span is dropped). -/
def scanTags : List Char → Option (List Char) → List Char
  | [], _ => []
  | c :: rest, none =>
      if c = '<' then scanTags rest (some [])
      else c :: scanTags rest none
  | c :: rest, some acc =>
      if c = '>' then
        (if blockTagNames.contains (jsToLower (tagNameOf acc.reverse)) then
          '\n' :: '\n' :: scanTags rest none
        else
          ' ' :: scanTags rest none)
      else scanTags rest (some (c :: acc))

/-- Regex `[ \t]+` to a single space (state: previous char was a space/tab). -/
def collapseSpaces : Bool → List Char → List Char
  | _, [] => []
  | prevSpace, c :: rest =>
      if c = ' ' ∨ c = '\t' then
        if prevSpace then collapseSpaces true rest
        else ' ' :: collapseSpaces true rest
      else c :: collapseSpaces false rest

theorem length_dropWhile_le {α : Type} (p : α → Bool) (l : List α) :
    (l.dropWhile p).length ≤ l.length := by
  induction l with
  | nil => simp [List.dropWhile]
  | cons a t ih =>
      by_cases h : p a
      · simp only [List.dropWhile_cons, h, if_true, List.length_cons]
        omega
      · simp [List.dropWhile_cons, h]

/-- Regex `\n\s*\n` to a paragraph break: a whitespace run containing a second
newline collapses to exactly two newlines. -/
def squeezeBlank (l : List Char) : List Char :=
  match l with
  | [] => []
  | c :: rest =>
      if c = '\n' then
        if (rest.takeWhile (fun d => d.isWhitespace)).any (fun d => d = '\n') then
          '\n' :: '\n' :: squeezeBlank (rest.dropWhile (fun d => d.isWhitespace))
        else
          '\n' :: squeezeBlank rest
      else c :: squeezeBlank rest
termination_by l.length
decreasing_by
  · exact Nat.lt_succ_of_le (length_dropWhile_le _ _)
  · exact Nat.lt_succ_self _
  · exact Nat.lt_succ_self _

/-- src/services/embeddingService.ts `stripHtml`. -/
def stripHtml (html : String) : String :=
  if html = "" then ""
  else
    let cleaned := String.mk (scanTags html.data none)
    let cleaned := cleaned.replace "&nbsp;" " "
    let cleaned := cleaned.replace "&amp;" "&"
    let cleaned := cleaned.replace "&lt;" "<"
    let cleaned := cleaned.replace "&gt;" ">"
    let cleaned := cleaned.replace "&quot;" "\""
    let cleaned := cleaned.replace "&#39;" (String.singleton (Char.ofNat 39))
    let cleaned := String.mk (squeezeBlank cleaned.data)
    let cleaned := String.mk (collapseSpaces false cleaned.data)
    jsTrim cleaned

/-- A lookup entity (the `ClassItem`/`RaceItem`/`GroupItem` interfaces are
structurally identical for this purpose: an id and a display name). -/
structure LookupItem where
  id : String
  name : String
deriving DecidableEq

/-- Source `table.find(x => x.id === id)?.name || id`: resolve a foreign-key id to
its display name, falling back to the raw id when unresolved (or when the
resolved name is empty). -/
def resolveLookupName (table : List LookupItem) (i : String) : String :=
  match table.find? (fun r => r.id == i) with
  | some r => jsStrOr r.name i
  | none => i

/-- Truthiness `member.field?.length` for an optional array field. -/
def listTruthy (v : Option (List String)) : Bool :=
  match v with
  | some l => !l.isEmpty
  | none => false

/-- src/services/embeddingService.ts `buildMemberEmbeddingText`: ordered
sections for identity, race, class, birth/death (level-at-death for
deceased members, else current level), physical attributes, religion,
groups, and the markup-stripped biography, joined by newlines. -/
def buildMemberEmbeddingText (member : MemberItem)
    (classes races groups : List LookupItem) : String :=
  let parts : List String :=
    (if jsTruthyS member.name then ["Name: " ++ member.name.getD ""] else []) ++
    (if jsTruthyS member.pseudonym then ["Also known as: " ++ member.pseudonym.getD ""] else []) ++
    (if jsTruthyS member.title then ["Title: " ++ member.title.getD ""] else []) ++
    (if listTruthy member.races then
      ["Race: " ++ String.intercalate ", " ((member.races.getD []).map (resolveLookupName races))]
    else []) ++
    (if listTruthy member.classes then
      ["Class: " ++ String.intercalate ", " ((member.classes.getD []).map (resolveLookupName classes))]
    else []) ++
    (if jsTruthyN member.born then ["Born: " ++ toString (member.born.getD 0) ++ "SF"] else []) ++
    (if jsTruthyN member.died then
      ["Died: " ++ toString (member.died.getD 0) ++ "SF" ++
        (if jsTruthyN member.level then
          " (Level " ++ toString (member.level.getD 0) ++ " at death)"
        else "")]
    else if jsTruthyN member.level then
      ["Level: " ++ toString (member.level.getD 0)]
    else []) ++
    (let physical : List String :=
      (if jsTruthyS member.ethnicity then ["ethnicity: " ++ member.ethnicity.getD ""] else []) ++
      (if jsTruthyS member.eyes then ["eyes: " ++ member.eyes.getD ""] else []) ++
      (if jsTruthyS member.hair then ["hair: " ++ member.hair.getD ""] else []) ++
      (if jsTruthyS member.height then ["height: " ++ member.height.getD ""] else []) ++
      (if jsTruthyN member.weight then ["weight: " ++ toString (member.weight.getD 0) ++ " lbs"] else [])
    if !physical.isEmpty then ["Physical: " ++ String.intercalate ", " physical] else []) ++
    (if jsTruthyS member.religion then ["Religion: " ++ member.religion.getD ""] else []) ++
    (if listTruthy member.groups then
      ["Groups: " ++ String.intercalate ", " ((member.groups.getD []).map (resolveLookupName groups))]
    else []) ++
    (if jsTruthyS member.descript then ["Biography: " ++ stripHtml (member.descript.getD "")] else [])
  String.intercalate "\n" parts

/-! ## Pinecone sync (pineconeService, src/unnamed/part_002)

The vector index is an association list keyed by vector id.  The external
embedding model (`generateEmbedding`, a Bedrock call) is an explicit
function parameter; the sync result carries the number of embedding-model
calls and upserts performed so the theorems can speak about effects. -/

inductive MetaVal where
  | s (v : String)
  | n (v : Int)
deriving DecidableEq

structure PineconeVector where
  id : String
  values : List Int
  metadata : List (String × MetaVal)
deriving DecidableEq

abbrev PineconeState := Table PineconeVector

/-- Source `index.deleteOne(id)`: removes the vector; an absent id answers with a
`not found` error. -/
def pineconeDeleteOne (id : String) (st : PineconeState) : Except String PineconeState :=
  match Table.find st id with
  | none => .error "not found"
  | some _ => .ok (Table.del st id)

/-- Source `deleteMemberFromPinecone`: delete the vector `member_<memberId>`,
swallowing a `not found` error (absence of a prior vector is not an
error). -/
def deleteMemberFromPinecone (memberId : String) (st : PineconeState) : PineconeState :=
  match pineconeDeleteOne ("member_" ++ memberId) st with
  | .ok st2 => st2
  | .error _ => st

/-- Effects performed by one sync call. -/
structure SyncEffects where
  embedCalls : Nat
  upserts : Nat
deriving DecidableEq

/-- Source `syncMemberToPinecone`: a soft-deleted member only has its vector
deleted (no embedding work); otherwise the embedding document is built and,
unless empty, embedded (the `generateEmbedding` call truncates to the
24000-character Titan limit), the prior vector is deleted, and the new
vector upserted under id `member_<id>` with the denormalized metadata
snapshot (optional fields only when truthy, text truncated to 3000,
timestamp `now`). -/
def syncMemberToPinecone (member : MemberItem)
    (classes races groups : List LookupItem)
    (embed : String → List Int) (now : String)
    (st : PineconeState) : PineconeState × SyncEffects :=
  if jsTruthyN member.deleted then
    (deleteMemberFromPinecone member.id st, ⟨0, 0⟩)
  else
    let embeddingText := buildMemberEmbeddingText member classes races groups
    if embeddingText = "" ∨ jsTrim embeddingText = "" then
      (st, ⟨0, 0⟩)
    else
      let embedding := embed (embeddingText.take 24000)
      let raceNames := String.intercalate ", " ((member.races.getD []).map (resolveLookupName races))
      let classNames := String.intercalate ", " ((member.classes.getD []).map (resolveLookupName classes))
      let groupNames := String.intercalate ", " ((member.groups.getD []).map (resolveLookupName groups))
      let metadata : List (String × MetaVal) :=
        [("type", .s "member"), ("memberId", .s member.id),
         ("name", .s (member.name.getD "")),
         ("text", .s (embeddingText.take 3000)), ("updatedAt", .s now)] ++
        (if jsTruthyS member.pseudonym then [("pseudonym", MetaVal.s (member.pseudonym.getD ""))] else []) ++
        (if jsTruthyS member.title then [("title", MetaVal.s (member.title.getD ""))] else []) ++
        (if jsTruthyN member.born then [("born", MetaVal.n (member.born.getD 0))] else []) ++
        (if jsTruthyN member.died then [("died", MetaVal.n (member.died.getD 0))] else []) ++
        (if jsTruthyN member.level then [("level", MetaVal.n (member.level.getD 0))] else []) ++
        (if raceNames != "" then [("races", MetaVal.s raceNames)] else []) ++
        (if classNames != "" then [("classes", MetaVal.s classNames)] else []) ++
        (if groupNames != "" then [("groups", MetaVal.s groupNames)] else []) ++
        (if jsTruthyS member.religion then [("religion", MetaVal.s (member.religion.getD ""))] else [])
      let vector : PineconeVector :=
        { id := "member_" ++ member.id, values := embedding, metadata := metadata }
      let st1 := deleteMemberFromPinecone member.id st
      let st2 := Table.put st1 vector.id vector
      (st2, ⟨1, 1⟩)

/-! ## Claim theorems -/

/-- C6: `sanitizeCreateMemberRequest` applies the defaults hp=1, level=1,
weight=0 when the corresponding numeric field is omitted from the input,
and because numeric coercion only happens when the source value is truthy,
an explicitly provided `0` for hp or level is treated as absent and
replaced by the default (input hp = 0 yields hp = 1), while a provided
non-zero numeric value is passed through via numeric parse. -/
theorem c6_create_numeric_defaults (rawData : RawMemberData) :
    (rawData.hp = none → (sanitizeCreateMemberRequest rawData).hp = 1) ∧
    (rawData.hp = some 0 → (sanitizeCreateMemberRequest rawData).hp = 1) ∧
    (∀ n : Int, n ≠ 0 → rawData.hp = some n → (sanitizeCreateMemberRequest rawData).hp = n) ∧
    (rawData.level = none → (sanitizeCreateMemberRequest rawData).level = 1) ∧
    (rawData.level = some 0 → (sanitizeCreateMemberRequest rawData).level = 1) ∧
    (∀ n : Int, n ≠ 0 → rawData.level = some n → (sanitizeCreateMemberRequest rawData).level = n) ∧
    (rawData.weight = none → (sanitizeCreateMemberRequest rawData).weight = 0) ∧
    (rawData.weight = some 0 → (sanitizeCreateMemberRequest rawData).weight = 0) ∧
    (∀ n : Int, n ≠ 0 → rawData.weight = some n → (sanitizeCreateMemberRequest rawData).weight = n) := by
  refine ⟨?_, ?_, ?_, ?_, ?_, ?_, ?_, ?_, ?_⟩
  · intro h; simp [sanitizeCreateMemberRequest, jsNumOr, h]
  · intro h; simp [sanitizeCreateMemberRequest, jsNumOr, h]
  · intro n hn h; simp [sanitizeCreateMemberRequest, jsNumOr, h, hn]
  · intro h; simp [sanitizeCreateMemberRequest, jsNumOr, h]
  · intro h; simp [sanitizeCreateMemberRequest, jsNumOr, h]
  · intro n hn h; simp [sanitizeCreateMemberRequest, jsNumOr, h, hn]
  · intro h; simp [sanitizeCreateMemberRequest, jsNumOr, h]
  · intro h; simp [sanitizeCreateMemberRequest, jsNumOr, h]
  · intro n hn h; simp [sanitizeCreateMemberRequest, jsNumOr, h, hn]

/-- Witness for C6 at concrete inputs: a provided hp of 0 defaults to 1, a
provided hp of 7 passes through, an omitted level defaults to 1 and an
omitted weight to 0. -/
theorem c6_create_numeric_defaults_witness :
    (sanitizeCreateMemberRequest { hp := some 0 }).hp = 1 ∧
    (sanitizeCreateMemberRequest { hp := some 7 }).hp = 7 ∧
    (sanitizeCreateMemberRequest { hp := some 0 }).level = 1 ∧
    (sanitizeCreateMemberRequest { hp := some 0 }).weight = 0 :=
  ⟨(c6_create_numeric_defaults { hp := some 0 }).2.1 rfl,
   (c6_create_numeric_defaults { hp := some 7 }).2.2.1 7 (by decide) rfl,
   (c6_create_numeric_defaults { hp := some 0 }).2.2.2.1 rfl,
   (c6_create_numeric_defaults { hp := some 0 }).2.2.2.2.2.2.1 rfl⟩

/-- A concrete create request used by witnesses. -/
def sampleCreateRequest : CreateMemberRequest :=
  { name := "Aldric", pseudonym := "", title := "", descript := "", owner := "alice",
    born := none, died := none, ethnicity := "", eyes := "", hair := "", height := "",
    weight := 0, hp := 1, level := 5, colour_hex := none, caster_colour := none,
    classes := [], races := [], religion := "", groups := [], tower_id := none,
    image := "" }

/-- C5: `createMember` fails with VALIDATION_ERROR and leaves the member
table untouched (the repository write is never invoked) whenever the
request name is empty after trimming; otherwise it delegates to the
repository and returns the persisted record, whose id is the newly
assigned uuid (non-empty whenever the generated uuid is). -/
theorem c5_create_validation (request : CreateMemberRequest) (uuid : String)
    (db : Table MemberItem) :
    (jsTrim request.name = "" →
      memberServiceCreate request uuid db =
        (.err .VALIDATION_ERROR "Member name cannot be empty", db)) ∧
    (jsTrim request.name ≠ "" →
      (memberServiceCreate request uuid db).1 =
        .ok (memberRepositoryCreateItem request uuid) ∧
      (memberServiceCreate request uuid db).2 =
        Table.put db uuid (memberRepositoryCreateItem request uuid) ∧
      Table.find (memberServiceCreate request uuid db).2 uuid =
        some (memberRepositoryCreateItem request uuid) ∧
      (memberRepositoryCreateItem request uuid).id = uuid ∧
      (uuid ≠ "" → (memberRepositoryCreateItem request uuid).id ≠ "")) := by
  constructor
  · intro h
    simp [memberServiceCreate, h]
  · intro h
    have hcond : ¬(request.name = "" ∨ jsTrim request.name = "") := by
      rintro (h1 | h1)
      · exact h (by rw [h1]; rfl)
      · exact h h1
    refine ⟨?_, ?_, ?_, rfl, fun hu => hu⟩
    · simp [memberServiceCreate, hcond, memberRepositoryCreate]
    · simp [memberServiceCreate, hcond, memberRepositoryCreate, memberRepositoryCreateItem]
    · simp only [memberServiceCreate, hcond, if_false, memberRepositoryCreate]
      exact Table.find_put_self _ _ _

/-- Witness for C5 at a concrete input: creating `Aldric` under uuid `u-1`
in the empty table persists and returns the built record. -/
theorem c5_create_validation_witness :
    (memberServiceCreate sampleCreateRequest "u-1" []).1 =
      .ok (memberRepositoryCreateItem sampleCreateRequest "u-1") ∧
    (memberServiceCreate sampleCreateRequest "u-1" []).2 =
      Table.put [] "u-1" (memberRepositoryCreateItem sampleCreateRequest "u-1") ∧
    Table.find (memberServiceCreate sampleCreateRequest "u-1" []).2 "u-1" =
      some (memberRepositoryCreateItem sampleCreateRequest "u-1") ∧
    (memberRepositoryCreateItem sampleCreateRequest "u-1").id = "u-1" ∧
    ("u-1" ≠ "" → (memberRepositoryCreateItem sampleCreateRequest "u-1").id ≠ "") :=
  (c5_create_validation sampleCreateRequest "u-1" []).2 (by decide)

/-- C1 counterexample: the claim says `getByOwner` uses an owner-indexed
lookup rather than a full table scan, but for ownerId `alice` the
repository issues a `ScanCommand` with `FilterExpression '#owner = :owner'`
— a full-table scan, not a query against any index. -/
theorem c1_counterexample :
    getByOwnerCommand "alice" = .scanFilterOwner "alice" ∧
    (getByOwnerCommand "alice").isIndexedQuery = false ∧
    (∀ indexName key, getByOwnerCommand "alice" ≠ .queryIndex indexName key) := by
  refine ⟨rfl, rfl, ?_⟩
  intro indexName key h
  exact DdbReadCommand.noConfusion h

/-- C1 (amended): for every non-empty ownerId, `getMembersByOwner` returns
exactly the set of members whose owner equals ownerId, with no duplicates,
accumulated across all pages of the underlying paginated storage results —
but it obtains them via a paginated full-table scan with an owner filter
expression, not via an owner-indexed query; for an empty or
whitespace-only ownerId it fails with VALIDATION_ERROR. -/
theorem c1_get_by_owner (ownerId : String) (pages : List (List MemberItem)) :
    (jsTrim ownerId = "" →
      memberServiceGetByOwner ownerId pages =
        .err .VALIDATION_ERROR "Owner ID is required") ∧
    (jsTrim ownerId ≠ "" →
      memberServiceGetByOwner ownerId pages =
        .ok (pages.flatten.filter (fun m => m.owner == some ownerId)) ∧
      (∀ m : MemberItem, m ∈ getByOwnerLoop ownerId pages ↔
        m ∈ pages.flatten ∧ m.owner = some ownerId) ∧
      (pages.flatten.Nodup → (getByOwnerLoop ownerId pages).Nodup) ∧
      (getByOwnerCommand ownerId).isIndexedQuery = false) := by
  constructor
  · intro h
    simp [memberServiceGetByOwner, h]
  · intro h
    have hcond : ¬(ownerId = "" ∨ jsTrim ownerId = "") := by
      rintro (h1 | h1)
      · exact h (by rw [h1]; rfl)
      · exact h h1
    refine ⟨?_, ?_, ?_, rfl⟩
    · simp [memberServiceGetByOwner, hcond, getByOwnerLoop_eq_filter_flatten]
    · intro m
      rw [getByOwnerLoop_eq_filter_flatten]
      simp [List.mem_filter]
      tauto
    · intro h2
      rw [getByOwnerLoop_eq_filter_flatten]
      exact h2.filter _

/-- A stored member with just an id and an owner, for witnesses. -/
def sampleMember (i o : String) : MemberItem := { id := i, owner := some o }

/-- Three underlying result pages of two items each (six in total), three
of them owned by `alice`. -/
def samplePages : List (List MemberItem) :=
  [[sampleMember "1" "alice", sampleMember "2" "bob"],
   [sampleMember "3" "alice", sampleMember "4" "carol"],
   [sampleMember "5" "alice", sampleMember "6" "bob"]]

/-- Witness for C1 at ownerId `alice` over three pages of two items. -/
theorem c1_get_by_owner_witness :
    memberServiceGetByOwner "alice" samplePages =
      .ok (samplePages.flatten.filter (fun m => m.owner == some "alice")) ∧
    (∀ m : MemberItem, m ∈ getByOwnerLoop "alice" samplePages ↔
      m ∈ samplePages.flatten ∧ m.owner = some "alice") ∧
    (samplePages.flatten.Nodup → (getByOwnerLoop "alice" samplePages).Nodup) ∧
    (getByOwnerCommand "alice").isIndexedQuery = false :=
  (c1_get_by_owner "alice" samplePages).2 (by decide)

theorem memberServiceUpdate_find_cases (id : String) (u : UpdateMemberRequest)
    (db : Table MemberItem) (m : MemberItem) (h : Table.find db id = some m) :
    ∃ m2, Table.find (memberServiceUpdate id u db).2 id = some m2 ∧
      (m2 = m ∨ m2 = applyUpdates m u) := by
  by_cases h0 : id = "" ∨ jsTrim id = ""
  · exact ⟨m, by simp [memberServiceUpdate, h0, h], Or.inl rfl⟩
  · cases hn : u.name with
    | none =>
        by_cases hemp : u.isEmptyUpdate
        · exact ⟨m, by simp [memberServiceUpdate, h0, h, hn, memberRepositoryUpdate, hemp],
            Or.inl rfl⟩
        · exact ⟨applyUpdates m u,
            by simp [memberServiceUpdate, h0, h, hn, memberRepositoryUpdate, hemp,
              Table.find_put_self], Or.inr rfl⟩
    | some nm =>
        by_cases hname : jsTrim nm = ""
        · exact ⟨m, by simp [memberServiceUpdate, h0, h, hn, hname], Or.inl rfl⟩
        · by_cases hemp : u.isEmptyUpdate
          · exact ⟨m, by simp [memberServiceUpdate, h0, h, hn, hname,
              memberRepositoryUpdate, hemp], Or.inl rfl⟩
          · exact ⟨applyUpdates m u,
              by simp [memberServiceUpdate, h0, h, hn, hname, memberRepositoryUpdate, hemp,
                Table.find_put_self], Or.inr rfl⟩

/-- C4: `updateMember` never clears a field that was absent from the input:
the sanitized update record defines only the fields explicitly present in
the raw input, the storage write sets only those fields, and therefore
every field of the pre-existing member not named in the input (and the id)
is unchanged afterwards, in every branch of the service. -/
theorem c4_update_frame (id : String) (rawData : RawMemberData)
    (db : Table MemberItem) (m : MemberItem) (h : Table.find db id = some m) :
    ∃ m2, Table.find (memberServiceUpdate id (sanitizeUpdateMemberRequest rawData) db).2 id =
        some m2 ∧
      m2.id = m.id ∧
      (rawData.name = none →
        (sanitizeUpdateMemberRequest rawData).name = none ∧ m2.name = m.name) ∧
      (rawData.pseudonym = none →
        (sanitizeUpdateMemberRequest rawData).pseudonym = none ∧ m2.pseudonym = m.pseudonym) ∧
      (rawData.title = none →
        (sanitizeUpdateMemberRequest rawData).title = none ∧ m2.title = m.title) ∧
      (rawData.descript = none →
        (sanitizeUpdateMemberRequest rawData).descript = none ∧ m2.descript = m.descript) ∧
      (rawData.owner = none →
        (sanitizeUpdateMemberRequest rawData).owner = none ∧ m2.owner = m.owner) ∧
      (rawData.born = none →
        (sanitizeUpdateMemberRequest rawData).born = none ∧ m2.born = m.born) ∧
      (rawData.died = none →
        (sanitizeUpdateMemberRequest rawData).died = none ∧ m2.died = m.died) ∧
      (rawData.ethnicity = none →
        (sanitizeUpdateMemberRequest rawData).ethnicity = none ∧ m2.ethnicity = m.ethnicity) ∧
      (rawData.eyes = none →
        (sanitizeUpdateMemberRequest rawData).eyes = none ∧ m2.eyes = m.eyes) ∧
      (rawData.hair = none →
        (sanitizeUpdateMemberRequest rawData).hair = none ∧ m2.hair = m.hair) ∧
      (rawData.height = none →
        (sanitizeUpdateMemberRequest rawData).height = none ∧ m2.height = m.height) ∧
      (rawData.weight = none →
        (sanitizeUpdateMemberRequest rawData).weight = none ∧ m2.weight = m.weight) ∧
      (rawData.hp = none →
        (sanitizeUpdateMemberRequest rawData).hp = none ∧ m2.hp = m.hp) ∧
      (rawData.level = none →
        (sanitizeUpdateMemberRequest rawData).level = none ∧ m2.level = m.level) ∧
      (rawData.colour_hex = none →
        (sanitizeUpdateMemberRequest rawData).colour_hex = none ∧
          m2.colour_hex = m.colour_hex) ∧
      (rawData.caster_colour = none →
        (sanitizeUpdateMemberRequest rawData).caster_colour = none ∧
          m2.caster_colour = m.caster_colour) ∧
      (rawData.classes = none →
        (sanitizeUpdateMemberRequest rawData).classes = none ∧ m2.classes = m.classes) ∧
      (rawData.races = none →
        (sanitizeUpdateMemberRequest rawData).races = none ∧ m2.races = m.races) ∧
      (rawData.religion = none →
        (sanitizeUpdateMemberRequest rawData).religion = none ∧ m2.religion = m.religion) ∧
      (rawData.groups = none →
        (sanitizeUpdateMemberRequest rawData).groups = none ∧ m2.groups = m.groups) ∧
      (rawData.tower_id = none →
        (sanitizeUpdateMemberRequest rawData).tower_id = none ∧ m2.tower_id = m.tower_id) ∧
      (rawData.image = none →
        (sanitizeUpdateMemberRequest rawData).image = none ∧ m2.image = m.image) := by
  obtain ⟨m2, hfind, hm2⟩ :=
    memberServiceUpdate_find_cases id (sanitizeUpdateMemberRequest rawData) db m h
  have hid : m2.id = m.id := by
    rcases hm2 with h2 | h2
    · rw [h2]
    · rw [h2]; rfl
  refine ⟨m2, hfind, hid, ?_, ?_, ?_, ?_, ?_, ?_, ?_, ?_, ?_, ?_, ?_, ?_, ?_, ?_,
    ?_, ?_, ?_, ?_, ?_, ?_, ?_, ?_⟩
  all_goals
    intro hf
    refine ⟨by simp [sanitizeUpdateMemberRequest, hf], ?_⟩
    rcases hm2 with h2 | h2
    · rw [h2]
    · rw [h2]; simp [applyUpdates, sanitizeUpdateMemberRequest, hf]

/-- A stored member holding a title, for the C4 witness. -/
def sampleStoredMember : MemberItem := { id := "m1", name := some "Old", title := some "Sir" }

/-- Witness for C4 at a concrete input: updating only the name of a member
whose title is `Sir` leaves the title equal to `Sir`. -/
theorem c4_update_frame_witness :
    ∃ m2, Table.find (memberServiceUpdate "m1"
        (sanitizeUpdateMemberRequest { name := some "NewName" })
        [("m1", sampleStoredMember)]).2 "m1" = some m2 ∧
      m2.title = some "Sir" := by
  obtain ⟨m2, hfind, hid, hname, hpseud, htitle, _⟩ :=
    c4_update_frame "m1" { name := some "NewName" } [("m1", sampleStoredMember)]
      sampleStoredMember (by decide)
  exact ⟨m2, hfind, ((htitle rfl).2).trans rfl⟩

/-- C2: `deleteMember` on a nonexistent (non-empty) id returns
MEMBER_NOT_FOUND and performs no storage mutation (member table and object
store are returned unchanged); on an existing member it best-effort deletes
the associated image object — an image-deletion failure is swallowed and
never blocks member deletion (the outcome oracle is universally
quantified) — and then deletes the member record, returning success. -/
theorem c2_delete (id : String) (db : Table MemberItem) (s3 : Table S3Obj)
    (imageDeleteFails : Bool) (h : jsTrim id ≠ "") :
    (Table.find db id = none →
      memberServiceDelete id db s3 imageDeleteFails =
        (.err .MEMBER_NOT_FOUND "Member not found", db, s3)) ∧
    (∀ m, Table.find db id = some m →
      (memberServiceDelete id db s3 imageDeleteFails).1 =
        .ok "Member deleted successfully" ∧
      Table.find (memberServiceDelete id db s3 imageDeleteFails).2.1 id = none ∧
      (∀ k, k ≠ id →
        Table.find (memberServiceDelete id db s3 imageDeleteFails).2.1 k =
          Table.find db k) ∧
      (memberServiceDelete id db s3 imageDeleteFails).2.2 =
        (if jsTruthyS m.image ∧ imageDeleteFails = false then
          Table.del s3 ((m.image).getD "")
        else s3)) := by
  have hcond : ¬(id = "" ∨ jsTrim id = "") := by
    rintro (h1 | h1)
    · exact h (by rw [h1]; rfl)
    · exact h h1
  constructor
  · intro hnone
    simp [memberServiceDelete, hcond, hnone]
  · intro m hm
    refine ⟨?_, ?_, ?_, ?_⟩
    · simp [memberServiceDelete, hcond, hm]
    · simp [memberServiceDelete, hcond, hm, memberRepositoryDelete, Table.find_del_self]
    · intro k hk
      simp [memberServiceDelete, hcond, hm, memberRepositoryDelete,
        Table.find_del_other _ _ _ hk]
    · by_cases himg : jsTruthyS m.image
      · cases imageDeleteFails with
        | true => simp [memberServiceDelete, hcond, hm, himg, deleteImageFromS3]
        | false => simp [memberServiceDelete, hcond, hm, himg, deleteImageFromS3]
      · simp [memberServiceDelete, hcond, hm, himg, deleteImageFromS3]

/-- A stored member carrying an image key, for the C2 witness. -/
def sampleMemberWithImage : MemberItem := { id := "m2", image := some "pic.jpg" }

/-- Witness for C2 at concrete inputs: deleting `m2` succeeds and removes
the record even though the image deletion fails, and deleting the
nonexistent `zz` answers MEMBER_NOT_FOUND with both stores unchanged. -/
theorem c2_delete_witness :
    (memberServiceDelete "m2" [("m2", sampleMemberWithImage)]
        [("pic.jpg", S3Obj.blob 3)] true).1 = .ok "Member deleted successfully" ∧
    Table.find (memberServiceDelete "m2" [("m2", sampleMemberWithImage)]
        [("pic.jpg", S3Obj.blob 3)] true).2.1 "m2" = none ∧
    memberServiceDelete "zz" [("m2", sampleMemberWithImage)] [] false =
      (.err .MEMBER_NOT_FOUND "Member not found", [("m2", sampleMemberWithImage)], []) := by
  obtain ⟨hok, hfind, _⟩ :=
    (c2_delete "m2" [("m2", sampleMemberWithImage)] [("pic.jpg", S3Obj.blob 3)] true
      (by decide)).2 sampleMemberWithImage (by decide)
  exact ⟨hok, hfind,
    (c2_delete "zz" [("m2", sampleMemberWithImage)] [] false (by decide)).1 (by decide)⟩

/-- C3 counterexample: the two representations of the same role set are not
accepted identically.  In `checkCharacterAccess` (caller `bob` requesting
subject `alice`) the comma-separated string `Administrator,Deity` is
compared as a single literal and denied (403) while the array form of the
same role set is allowed (200); and `checkMemberAuthorization` accepts the
string form of `Administrator` but throws a TypeError on the array form
(the extractor calls `.split` on the claim value). -/
theorem c3_counterexample :
    (checkCharacterAccess
        (some { sub := some "bob", groups := .str "Administrator,Deity" })
        (some "alice")).statusCode = 403 ∧
    (checkCharacterAccess
        (some { sub := some "bob", groups := .groupList ["Administrator", "Deity"] })
        (some "alice")).statusCode = 200 ∧
    checkMemberAuthorization (some { sub := some "bob", groups := .groupList ["Administrator"] }) =
      .error "TypeError: split is not a function" ∧
    (∃ r, checkMemberAuthorization (some { sub := some "bob", groups := .str "Administrator" }) =
      .ok r ∧ r.statusCode = 200) := by
  refine ⟨by decide, by decide, rfl, ⟨_, rfl, ?_⟩⟩
  decide

/-- C3 (amended): for claims whose `cognito:groups` entry the extractor
handles (absent or a comma-separated string), a mutating request is allowed
(200) exactly when the comma-split group list contains one of the fixed
roles MemberEditors, Deity, Administrator, and is otherwise rejected with
403 — but the string and array representations of a role set are not
accepted identically: an array-valued claim makes `checkMemberAuthorization`
throw a TypeError (surfaced as a 500 by the top-level handler), and
`checkCharacterAccess` compares a multi-role comma-separated string as one
literal while checking the array form element-wise. -/
theorem c3_mutation_policy (claims : Option ClaimsSet) (userGroups : List String)
    (h : extractUserGroups claims = .ok userGroups) :
    ∃ r, checkMemberAuthorization claims = .ok r ∧
      (r.statusCode = 200 ∨ r.statusCode = 403) ∧
      (r.statusCode = 200 ↔ ∃ g ∈ userGroups, g ∈ requiredGroups) ∧
      (r.isAuthorized = some true ↔ ∃ g ∈ userGroups, g ∈ requiredGroups) := by
  have hex_iff : (userGroups.any (fun g => requiredGroups.contains g) = true) ↔
      (∃ g ∈ userGroups, g ∈ requiredGroups) := by
    simp [List.any_eq_true]
  by_cases hany : userGroups.any (fun g => requiredGroups.contains g) = true
  · refine ⟨⟨200, some "Authorized", some userGroups, some true⟩,
      by simp only [checkMemberAuthorization, h]; rw [hany]; simp, Or.inl rfl, ?_, ?_⟩
    · exact iff_of_true rfl (hex_iff.mp hany)
    · exact iff_of_true rfl (hex_iff.mp hany)
  · have hfalse : userGroups.any (fun g => requiredGroups.contains g) = false := by
      simpa using hany
    refine ⟨⟨403, some "Unauthorized - insufficient permissions", some userGroups, some false⟩,
      by simp only [checkMemberAuthorization, h]; rw [hfalse]; simp, Or.inr rfl, ?_, ?_⟩
    · exact iff_of_false (by simp) (fun hex => hany (hex_iff.mpr hex))
    · exact iff_of_false (by simp) (fun hex => hany (hex_iff.mpr hex))

/-- Witness for C3 at a concrete input: a caller whose groups claim is the
string `Player,Deity` is allowed (the split list contains Deity). -/
theorem c3_mutation_policy_witness :
    ∃ r, checkMemberAuthorization (some { sub := some "bob", groups := .str "Player,Deity" }) =
        .ok r ∧
      (r.statusCode = 200 ∨ r.statusCode = 403) ∧
      (r.statusCode = 200 ↔ ∃ g ∈ ["Player", "Deity"], g ∈ requiredGroups) ∧
      (r.isAuthorized = some true ↔ ∃ g ∈ ["Player", "Deity"], g ∈ requiredGroups) :=
  c3_mutation_policy (some { sub := some "bob", groups := .str "Player,Deity" })
    ["Player", "Deity"] rfl

theorem methodDispatch_unsupported {β : Type} (httpMethod : String)
    (hGet hPost hPut hDelete : Except String (Nat × HandlerBody β))
    (h : httpMethod ∉ (["GET", "POST", "PUT", "DELETE", "OPTIONS"] : List String)) :
    methodDispatch httpMethod hGet hPost hPut hDelete =
      .ok (405, .messageObj "Method not allowed") := by
  unfold methodDispatch
  split <;> simp_all

/-- C7: for every inbound request the top-level handler returns a response
and never lets a failure escape: a method other than GET, POST, PUT,
DELETE, OPTIONS yields 405; OPTIONS yields 200 independently of every
downstream handler (no authorization check); a failure raised by the
dispatched downstream handler is caught and surfaced as 500 with the
failure message in the response body; and the fixed CORS header set is
attached to every response. -/
theorem c7_handler_envelope {β : Type} (httpMethod : String)
    (hGet hPost hPut hDelete : Except String (Nat × HandlerBody β)) :
    ((lambdaHandler httpMethod hGet hPost hPut hDelete).headers = corsHeaders) ∧
    (httpMethod ∉ (["GET", "POST", "PUT", "DELETE", "OPTIONS"] : List String) →
      lambdaHandler httpMethod hGet hPost hPut hDelete =
        ⟨405, corsHeaders, .messageObj "Method not allowed"⟩) ∧
    (httpMethod = "OPTIONS" →
      lambdaHandler httpMethod hGet hPost hPut hDelete =
        ⟨200, corsHeaders, .messageObj "OK"⟩) ∧
    (∀ e, httpMethod = "GET" → hGet = .error e →
      lambdaHandler httpMethod hGet hPost hPut hDelete = ⟨500, corsHeaders, .messageObj e⟩) ∧
    (∀ e, httpMethod = "POST" → hPost = .error e →
      lambdaHandler httpMethod hGet hPost hPut hDelete = ⟨500, corsHeaders, .messageObj e⟩) ∧
    (∀ e, httpMethod = "PUT" → hPut = .error e →
      lambdaHandler httpMethod hGet hPost hPut hDelete = ⟨500, corsHeaders, .messageObj e⟩) ∧
    (∀ e, httpMethod = "DELETE" → hDelete = .error e →
      lambdaHandler httpMethod hGet hPost hPut hDelete = ⟨500, corsHeaders, .messageObj e⟩) := by
  refine ⟨?_, ?_, ?_, ?_, ?_, ?_, ?_⟩
  · cases hd : methodDispatch httpMethod hGet hPost hPut hDelete with
    | ok p => obtain ⟨sc, b⟩ := p; simp [lambdaHandler, hd]
    | error e => simp [lambdaHandler, hd]
  · intro h
    simp [lambdaHandler, methodDispatch_unsupported httpMethod hGet hPost hPut hDelete h]
  · intro h
    subst h
    simp [lambdaHandler, methodDispatch]
  · intro e hm he
    subst hm
    simp [lambdaHandler, methodDispatch, he]
  · intro e hm he
    subst hm
    simp [lambdaHandler, methodDispatch, he]
  · intro e hm he
    subst hm
    simp [lambdaHandler, methodDispatch, he]
  · intro e hm he
    subst hm
    simp [lambdaHandler, methodDispatch, he]

/-- Witness for C7 at concrete inputs (body type `Unit`): `PATCH` yields
405, `OPTIONS` yields 200, and a `GET` whose downstream handler failed with
message `boom` yields 500 carrying `boom`. -/
theorem c7_handler_envelope_witness :
    lambdaHandler (β := Unit) "PATCH" (.ok (200, .messageObj "a")) (.ok (200, .messageObj "b"))
        (.ok (200, .messageObj "c")) (.ok (200, .messageObj "d")) =
      ⟨405, corsHeaders, .messageObj "Method not allowed"⟩ ∧
    lambdaHandler (β := Unit) "OPTIONS" (.ok (200, .messageObj "a")) (.ok (200, .messageObj "b"))
        (.ok (200, .messageObj "c")) (.ok (200, .messageObj "d")) =
      ⟨200, corsHeaders, .messageObj "OK"⟩ ∧
    lambdaHandler (β := Unit) "GET" (.error "boom") (.ok (200, .messageObj "b"))
        (.ok (200, .messageObj "c")) (.ok (200, .messageObj "d")) =
      ⟨500, corsHeaders, .messageObj "boom"⟩ :=
  ⟨(c7_handler_envelope "PATCH" _ _ _ _).2.1 (by decide),
   (c7_handler_envelope "OPTIONS" _ _ _ _).2.2.1 rfl,
   (c7_handler_envelope "GET" (.error "boom") _ _ _).2.2.2.1 "boom" rfl rfl⟩

/-- C10 (implicit): for every PUT /members/member/(id) request whose parsed
body (JSON body, or the `data` field of a multipart body) lacks a truthy
`id` field, the handler returns 400 `Missing member ID` — before any
sanitization or service call and with the member table returned unchanged
(no storage write) — even though the member id is already supplied in the
path (`memberId` is universally quantified and unused by the outcome). -/
theorem c10_missing_update_id (memberData : RawMemberData)
    (imageS3Key imageValidationError : Option String) (memberId : String)
    (db : Table MemberItem)
    (h : memberData.id = none ∨ memberData.id = some "") :
    handlerUpdateMember memberData imageS3Key imageValidationError memberId db =
      ((400, .messageObj "Missing member ID"), db) := by
  have ht : jsTruthyS memberData.id = false := by
    rcases h with h1 | h1 <;> simp [jsTruthyS, h1]
  simp [handlerUpdateMember, ht]

/-- Witness for C10 at a concrete input: a body updating only the name but
carrying no `id` field is rejected with 400 even though the path id `m1`
exists in the table, which is left unchanged. -/
theorem c10_missing_update_id_witness :
    handlerUpdateMember { name := some "NewName" } none none "m1"
        [("m1", sampleStoredMember)] =
      ((400, .messageObj "Missing member ID"), [("m1", sampleStoredMember)]) :=
  c10_missing_update_id { name := some "NewName" } none none "m1"
    [("m1", sampleStoredMember)] (Or.inl rfl)

theorem notFound_msg_ne_generic (msg : String) :
    "File does not exist, cannot update" ≠ "Failed to update file: " ++ msg := by
  intro h
  have hd : ("File does not exist, cannot update").data =
      ("Failed to update file: ").data ++ msg.data := by
    have h2 := congrArg String.data h
    rwa [String.data_append] at h2
  have h3 : (("Failed to update file: ").data ++ msg.data)[3]? = some 'l' := by
    rw [List.getElem?_append, if_pos (by decide)]
    decide
  rw [← hd] at h3
  have h4 : ("File does not exist, cannot update").data[3]? = some 'e' := by decide
  rw [h4] at h3
  simp at h3

/-- C9: `updateImageInS3` first confirms the existing key is present in the
object store; when the object does not exist it fails with the distinct
message `File does not exist, cannot update` — not of the generic
`Failed to update file: ...` shape — and leaves the store unchanged; when
it exists (and processing does not throw, i.e. the key is not a video over
1 MiB) the very same key is reused: the stored object is overwritten in
place, every other key is untouched, and the returned imageUrl equals the
existing key. -/
theorem c9_update_image (fileBuffer : Buffer) (existingImageKey : String)
    (s3 : Table S3Obj) :
    (Table.find s3 existingImageKey = none →
      updateImageInS3 fileBuffer existingImageKey s3 =
        ({ success := false, error := some "File does not exist, cannot update" }, s3) ∧
      (∀ msg, (updateImageInS3 fileBuffer existingImageKey s3).1.error ≠
        some ("Failed to update file: " ++ msg))) ∧
    (∀ o, Table.find s3 existingImageKey = some o →
      ¬((getFileType existingImageKey).isVideo = true ∧ fileBuffer.len > 1024 * 1024) →
      (updateImageInS3 fileBuffer existingImageKey s3).1.success = true ∧
      (updateImageInS3 fileBuffer existingImageKey s3).1.imageUrl = some existingImageKey ∧
      Table.find (updateImageInS3 fileBuffer existingImageKey s3).2 existingImageKey =
        some (if (getFileType existingImageKey).isVideo then S3Obj.rawVideo fileBuffer
              else S3Obj.resizedJpeg fileBuffer 300 500 90) ∧
      (∀ k, k ≠ existingImageKey →
        Table.find (updateImageInS3 fileBuffer existingImageKey s3).2 k =
          Table.find s3 k)) := by
  constructor
  · intro hnone
    refine ⟨by simp [updateImageInS3, hnone], ?_⟩
    intro msg hcontra
    rw [updateImageInS3, hnone] at hcontra
    simp only [Option.some.injEq] at hcontra
    exact notFound_msg_ne_generic msg hcontra
  · intro o hsome hproc
    by_cases hvid : (getFileType existingImageKey).isVideo
    · have hlen : ¬fileBuffer.len > 1024 * 1024 := fun hl => hproc ⟨hvid, hl⟩
      refine ⟨?_, ?_, ?_, ?_⟩
      · simp [updateImageInS3, hsome, hvid, hlen]
      · simp [updateImageInS3, hsome, hvid, hlen]
      · simp [updateImageInS3, hsome, hvid, hlen, Table.find_put_self]
      · intro k hk
        simp [updateImageInS3, hsome, hvid, hlen, Table.find_put_other _ _ _ _ hk]
    · refine ⟨?_, ?_, ?_, ?_⟩
      · simp [updateImageInS3, hsome, hvid]
      · simp [updateImageInS3, hsome, hvid]
      · simp [updateImageInS3, hsome, hvid, Table.find_put_self]
      · intro k hk
        simp [updateImageInS3, hsome, hvid, Table.find_put_other _ _ _ _ hk]

/-- Witness for C9 at concrete inputs: updating the missing key `gone.jpg`
fails with the distinct not-found message and leaves the store unchanged;
updating the existing key `pic.jpg` succeeds, overwrites it in place with
the resized JPEG, and returns that same key as the imageUrl. -/
theorem c9_update_image_witness :
    updateImageInS3 ⟨100, 0⟩ "gone.jpg" [("pic.jpg", S3Obj.blob 1)] =
      ({ success := false, error := some "File does not exist, cannot update" },
       [("pic.jpg", S3Obj.blob 1)]) ∧
    (updateImageInS3 ⟨100, 0⟩ "pic.jpg" [("pic.jpg", S3Obj.blob 1)]).1.success = true ∧
    (updateImageInS3 ⟨100, 0⟩ "pic.jpg" [("pic.jpg", S3Obj.blob 1)]).1.imageUrl =
      some "pic.jpg" ∧
    Table.find (updateImageInS3 ⟨100, 0⟩ "pic.jpg" [("pic.jpg", S3Obj.blob 1)]).2 "pic.jpg" =
      some (if (getFileType "pic.jpg").isVideo then S3Obj.rawVideo ⟨100, 0⟩
            else S3Obj.resizedJpeg ⟨100, 0⟩ 300 500 90) := by
  obtain ⟨hsucc, hurl, hfind, _⟩ :=
    (c9_update_image ⟨100, 0⟩ "pic.jpg" [("pic.jpg", S3Obj.blob 1)]).2 (S3Obj.blob 1)
      (by decide) (by decide)
  exact ⟨((c9_update_image ⟨100, 0⟩ "gone.jpg" [("pic.jpg", S3Obj.blob 1)]).1 (by decide)).1,
    hsucc, hurl, hfind⟩

theorem deleteMemberFromPinecone_find_self (memberId : String) (st : PineconeState) :
    Table.find (deleteMemberFromPinecone memberId st) ("member_" ++ memberId) = none := by
  unfold deleteMemberFromPinecone pineconeDeleteOne
  cases hf : Table.find st ("member_" ++ memberId) with
  | none => simpa using hf
  | some v => simp [Table.find_del_self]

theorem deleteMemberFromPinecone_find_other (memberId vid : String) (st : PineconeState)
    (h : vid ≠ "member_" ++ memberId) :
    Table.find (deleteMemberFromPinecone memberId st) vid = Table.find st vid := by
  unfold deleteMemberFromPinecone pineconeDeleteOne
  cases hf : Table.find st ("member_" ++ memberId) with
  | none => rfl
  | some v => simp [Table.find_del_other _ _ _ h]

/-- C8: for every member whose deleted flag is truthy,
`syncMemberToPinecone` reduces to the vector deletion (which swallows a
`not found` answer, so absence of a prior vector is not an error — the
state is universally quantified) and returns with zero embedding-model
calls and zero upserts; afterwards no vector exists for `member_<id>` and
every other vector is untouched. -/
theorem c8_sync_deleted (member : MemberItem) (classes races groups : List LookupItem)
    (embed : String → List Int) (now : String) (st : PineconeState)
    (h : jsTruthyN member.deleted = true) :
    syncMemberToPinecone member classes races groups embed now st =
      (deleteMemberFromPinecone member.id st, ⟨0, 0⟩) ∧
    Table.find (syncMemberToPinecone member classes races groups embed now st).1
      ("member_" ++ member.id) = none ∧
    (∀ vid, vid ≠ "member_" ++ member.id →
      Table.find (syncMemberToPinecone member classes races groups embed now st).1 vid =
        Table.find st vid) ∧
    (syncMemberToPinecone member classes races groups embed now st).2.embedCalls = 0 ∧
    (syncMemberToPinecone member classes races groups embed now st).2.upserts = 0 := by
  have heq : syncMemberToPinecone member classes races groups embed now st =
      (deleteMemberFromPinecone member.id st, ⟨0, 0⟩) := by
    simp [syncMemberToPinecone, h]
  refine ⟨heq, ?_, ?_, ?_, ?_⟩
  · rw [heq]
    exact deleteMemberFromPinecone_find_self member.id st
  · intro vid hvid
    rw [heq]
    exact deleteMemberFromPinecone_find_other member.id vid st hvid
  · rw [heq]
  · rw [heq]

/-- A soft-deleted member for the C8 witness. -/
def sampleDeletedMember : MemberItem := { id := "m9", deleted := some 1 }

/-- Witness for C8 at concrete inputs: syncing the soft-deleted `m9` over a
state holding its vector and an unrelated one removes exactly the `m9`
vector, performs no embedding call and no upsert. -/
theorem c8_sync_deleted_witness :
    Table.find (syncMemberToPinecone sampleDeletedMember [] [] []
        (fun _ => []) "t" [("member_m9", ⟨"member_m9", [], []⟩),
          ("member_x", ⟨"member_x", [], []⟩)]).1 ("member_" ++ "m9") = none ∧
    Table.find (syncMemberToPinecone sampleDeletedMember [] [] []
        (fun _ => []) "t" [("member_m9", ⟨"member_m9", [], []⟩),
          ("member_x", ⟨"member_x", [], []⟩)]).1 "member_x" =
      some ⟨"member_x", [], []⟩ ∧
    (syncMemberToPinecone sampleDeletedMember [] [] []
        (fun _ => []) "t" [("member_m9", ⟨"member_m9", [], []⟩),
          ("member_x", ⟨"member_x", [], []⟩)]).2.embedCalls = 0 ∧
    (syncMemberToPinecone sampleDeletedMember [] [] []
        (fun _ => []) "t" [("member_m9", ⟨"member_m9", [], []⟩),
          ("member_x", ⟨"member_x", [], []⟩)]).2.upserts = 0 := by
  obtain ⟨heq, hself, hother, hembed, hups⟩ :=
    c8_sync_deleted sampleDeletedMember [] [] [] (fun _ => []) "t"
      [("member_m9", ⟨"member_m9", [], []⟩), ("member_x", ⟨"member_x", [], []⟩)]
      (by decide)
  exact ⟨hself, (hother "member_x" (by decide)).trans (by decide), hembed, hups⟩
